import Mathlib

/-!
# Side Quest — verification of the quest-claim and scoring core

Shallow embedding of the point-awarding core of the "Side Quest" campus
gamification app:

* the GeoThinkr guess-scoring route
  (`app/api/geothinkr/game/route.js`): difficulty thresholds, tier policy,
  hint deduction, the at-most-once attempt ledger and the achievement
  evaluator;
* the SQL functions `claim_quest` and `increment_points`
  (`scripts/complete_migration.sql`);
* the quest-progress route (`app/api/progress/route.js`) and the admin
  GeoThinkr photo route (`app/api/admin/geothinkr/route.js`).

Machine integers of the backing store (`INTEGER` columns) are modelled as
unbounded `ℤ`; coordinates and distances as exact rationals `ℚ`.  Each
effectful route handler is embedded as an explicit state-passing function,
one database statement per step.
-/

namespace SideQuest

/-! ## Scoring Engine — `app/api/geothinkr/game/route.js` -/

/-- The pair of radii returned by `getScoringThresholds`. -/
structure Thresholds where
  spotOnRadius : ℚ
  closeRadius : ℚ
deriving DecidableEq, Repr

/-- `getScoringThresholds(difficulty)` from the game route: a switch on the
difficulty string with a default of the "easy" radii. -/
def getScoringThresholds (difficulty : String) : Thresholds :=
  if difficulty = "easy" then ⟨100, 300⟩
  else if difficulty = "medium" then ⟨75, 200⟩
  else if difficulty = "hard" then ⟨50, 150⟩
  else ⟨100, 300⟩

/-- Result of the tier policy: base points and the tier label. -/
structure TierResult where
  basePoints : ℤ
  tier : String
deriving DecidableEq, Repr

/-- The tier policy of the POST handler.  The route computes
`distance = Math.sqrt (dx*dx + dy*dy)` and compares `distance ≤ radius`.
Both sides are non-negative, so `Real.sqrt distSq ≤ r ↔ distSq ≤ r ^ 2`;
the comparison is embedded on the squared distance to stay in exact
(computable) rational arithmetic. -/
def tierFor (distSq : ℚ) (difficulty : String) : TierResult :=
  let t := getScoringThresholds difficulty
  if distSq ≤ t.spotOnRadius ^ 2 then ⟨500, "Spot-on!"⟩
  else if distSq ≤ t.closeRadius ^ 2 then ⟨200, "Close enough"⟩
  else ⟨0, "Nope"⟩

/-- Squared Euclidean distance between the stored photo coordinates and the
guess, from `const dx = photo.x_coordinate - x; const dy = ...`. -/
def distSqOf (targetX targetY guessX guessY : ℚ) : ℚ :=
  (targetX - guessX) ^ 2 + (targetY - guessY) ^ 2

/-- `const hintDeduction = Math.min(hints_used * 100, basePoints)`. -/
def hintDeduction (hintsUsed basePoints : ℤ) : ℤ :=
  min (hintsUsed * 100) basePoints

/-- `const points = Math.max(basePoints - hintDeduction, 0)`. -/
def finalPoints (basePoints hintsUsed : ℤ) : ℤ :=
  max (basePoints - hintDeduction hintsUsed basePoints) 0

end SideQuest

namespace SideQuest

/-! ### Scoring lemmas -/

theorem basePoints_nonneg (distSq : ℚ) (difficulty : String) :
    0 ≤ (tierFor distSq difficulty).basePoints := by
  simp only [tierFor]
  split_ifs <;> simp

theorem basePoints_antitone (difficulty : String) {d₁ d₂ : ℚ} (h : d₁ ≤ d₂) :
    (tierFor d₂ difficulty).basePoints ≤ (tierFor d₁ difficulty).basePoints := by
  simp only [tierFor]
  split_ifs <;> simp_all <;> linarith

theorem finalPoints_mono_base {b₁ b₂ h : ℤ} (hb : b₁ ≤ b₂) :
    finalPoints b₁ h ≤ finalPoints b₂ h := by
  unfold finalPoints hintDeduction
  omega

/-! ## Quest Claim Arbiter — `claim_quest` in `scripts/complete_migration.sql` -/

/-- One row of the `quests` table, restricted to the columns that
`claim_quest` reads or writes. -/
structure Quest where
  is_multiplayer : Bool
  winner_id : Option Nat
  reward_points : ℤ
deriving DecidableEq, Repr

/-- The database state touched by `claim_quest`: the quest row being claimed
and the `points` column of the `users` table, indexed by user id. -/
structure ClaimDB where
  quest : Quest
  points : Nat → ℤ

/-- `UPDATE users SET points = points + amount WHERE users.user_id = ...` —
the single-statement atomic increment, the body of the SQL function
`increment_points` and of the payout inside `claim_quest`. -/
def increment_points (userId : Nat) (amount : ℤ) (points : Nat → ℤ) : Nat → ℤ :=
  fun u => if u = userId then points u + amount else points u

/-- The stored procedure `claim_quest(p_quest_id, p_user_id)`, executed by
the database as one atomic transaction.  It reads `is_multiplayer`,
`winner_id` and `reward_points`, returns TRUE at once for a non-multiplayer
quest, FALSE if a winner is recorded, and otherwise runs the conditional
`UPDATE ... SET winner_id = p_user_id WHERE ... winner_id IS NULL`; `FOUND`
(at least one row affected) leads to the payout and TRUE, zero affected
rows to FALSE. -/
def claim_quest (p_user_id : Nat) (db : ClaimDB) : Bool × ClaimDB :=
  let v_is_multiplayer := db.quest.is_multiplayer
  let v_winner_id := db.quest.winner_id
  let v_points := db.quest.reward_points
  if !v_is_multiplayer then (true, db)
  else if v_winner_id.isSome then (false, db)
  else
    match db.quest.winner_id with
    | some _ => (false, db)
    | none =>
      let db₁ : ClaimDB := { db with quest := { db.quest with winner_id := some p_user_id } }
      (true, { db₁ with points := increment_points p_user_id v_points db₁.points })

/-- A sequence of `claim_quest` invocations, one atomic step each, returning
the list of results and the final state. -/
def runClaims (users : List Nat) (db : ClaimDB) : List Bool × ClaimDB :=
  match users with
  | [] => ([], db)
  | u :: rest =>
    let step := claim_quest u db
    let next := runClaims rest step.2
    (step.1 :: next.1, next.2)

/-- On a multiplayer quest whose winner is already recorded, a claim reports
FALSE and leaves the state untouched. -/
theorem claim_quest_lost {db : ClaimDB} (hm : db.quest.is_multiplayer = true)
    {w : Nat} (hw : db.quest.winner_id = some w) (u : Nat) :
    claim_quest u db = (false, db) := by
  simp [claim_quest, hm, hw]

/-- Once a multiplayer quest is won, every further claim in a run loses and
nothing is mutated. -/
theorem runClaims_after_won {db : ClaimDB} (hm : db.quest.is_multiplayer = true)
    {w : Nat} (hw : db.quest.winner_id = some w) (users : List Nat) :
    runClaims users db = (List.replicate users.length false, db) := by
  induction users with
  | nil => simp [runClaims]
  | cons u rest ih =>
    simp [runClaims, claim_quest_lost hm hw u, ih, List.replicate_succ]

/-- A claim on an open multiplayer quest wins: winner set and payout applied
in the same atomic step. -/
theorem claim_quest_won {db : ClaimDB} (hm : db.quest.is_multiplayer = true)
    (hw : db.quest.winner_id = none) (u : Nat) :
    claim_quest u db =
      (true, { quest := { db.quest with winner_id := some u },
               points := increment_points u db.quest.reward_points db.points }) := by
  simp [claim_quest, hm, hw]

/-- A claim on a non-multiplayer quest reports TRUE and mutates nothing. -/
theorem claim_quest_not_multiplayer {db : ClaimDB}
    (hm : db.quest.is_multiplayer = false) (u : Nat) :
    claim_quest u db = (true, db) := by
  simp [claim_quest, hm]

/-- C1: `claim_quest(questId, userId)` reads whether the quest is
multiplayer and already has a winner; a non-multiplayer quest yields TRUE
with no mutation; a recorded winner yields FALSE with no mutation; otherwise
the conditional update sets `winner_id` only while it is still null, zero
affected rows is a loss, and a successful update awards `reward_points` to
the winner inside the same atomic operation before returning TRUE. -/
theorem claim_quest_algorithm (db : ClaimDB) (uid : Nat) :
    (db.quest.is_multiplayer = false → claim_quest uid db = (true, db)) ∧
    (db.quest.is_multiplayer = true →
      ∀ w, db.quest.winner_id = some w → claim_quest uid db = (false, db)) ∧
    (db.quest.is_multiplayer = true → db.quest.winner_id = none →
      claim_quest uid db =
        (true, { quest := { db.quest with winner_id := some uid },
                 points := increment_points uid db.quest.reward_points db.points })) ∧
    ((claim_quest uid db).2.quest.winner_id ≠ db.quest.winner_id →
      db.quest.winner_id = none ∧ (claim_quest uid db).2.quest.winner_id = some uid) := by
  refine ⟨fun hm => by simp [claim_quest, hm], fun hm w hw => claim_quest_lost hm hw uid,
    fun hm hw => claim_quest_won hm hw uid, ?_⟩
  intro hne
  rcases hmv : db.quest.is_multiplayer with _ | _
  · simp [claim_quest, hmv] at hne
  · rcases hw : db.quest.winner_id with _ | w
    · simp [claim_quest_won hmv hw uid]
    · simp [claim_quest_lost hmv hw uid] at hne

/-- Witness for `claim_quest_algorithm` on a concrete open multiplayer
quest worth 250 points. -/
theorem claim_quest_algorithm_witness :
    claim_quest 7 ⟨⟨true, none, 250⟩, fun _ => 0⟩ =
      (true, { quest := { is_multiplayer := true, winner_id := some 7, reward_points := 250 },
               points := increment_points 7 250 (fun _ => 0) }) :=
  (claim_quest_algorithm ⟨⟨true, none, 250⟩, fun _ => 0⟩ 7).2.2.1 rfl rfl

/-- Running a claim sequence headed by a winning claim: the head wins, the
tail all lose, and the final state is the head's win state. -/
theorem runClaims_won_cons (db : ClaimDB) (u : Nat) (rest : List Nat)
    (hm : db.quest.is_multiplayer = true) (hw : db.quest.winner_id = none) :
    runClaims (u :: rest) db =
      (true :: List.replicate rest.length false,
       { quest := { db.quest with winner_id := some u },
         points := increment_points u db.quest.reward_points db.points }) := by
  have hstep := claim_quest_won hm hw u
  have h2 := @runClaims_after_won
      ⟨{ db.quest with winner_id := some u },
       increment_points u db.quest.reward_points db.points⟩ hm u rfl rest
  simp only [runClaims, hstep, h2]

/-- C2: on a multiplayer quest with no winner, a sequence of claim attempts
by distinct users has exactly one TRUE result (the first attempt), exactly
one payout of `reward_points` (to that user and nobody else), the winner
field equals the winning user's id, and every later attempt — in this run
or any continuation — reports FALSE and mutates nothing. -/
theorem multiplayer_single_winner (db : ClaimDB) (u : Nat) (rest : List Nat)
    (hm : db.quest.is_multiplayer = true) (hw : db.quest.winner_id = none)
    (hnd : (u :: rest).Nodup) :
    (runClaims (u :: rest) db).1 = true :: List.replicate rest.length false ∧
    ((runClaims (u :: rest) db).1.count true = 1) ∧
    (runClaims (u :: rest) db).2.quest.winner_id = some u ∧
    (∀ v, (runClaims (u :: rest) db).2.points v =
      db.points v + (if v = u then db.quest.reward_points else 0)) ∧
    (∀ more : List Nat,
      runClaims more (runClaims (u :: rest) db).2 =
        (List.replicate more.length false, (runClaims (u :: rest) db).2)) := by
  have hrun := runClaims_won_cons db u rest hm hw
  rw [hrun]
  refine ⟨rfl, by simp [List.count_replicate], rfl, ?_, ?_⟩
  · intro v
    by_cases hv : v = u <;> simp [increment_points, hv]
  · intro more
    exact @runClaims_after_won
      ⟨{ db.quest with winner_id := some u },
       increment_points u db.quest.reward_points db.points⟩ hm u rfl more

/-- Witness for `multiplayer_single_winner`: users 1 then 2 race for a
250-point quest; user 1 wins it and the 250-point payout, user 2 loses. -/
theorem multiplayer_single_winner_witness :
    (runClaims [1, 2] ⟨⟨true, none, 250⟩, fun _ => 0⟩).1 = [true, false] ∧
    (runClaims [1, 2] ⟨⟨true, none, 250⟩, fun _ => 0⟩).2.quest.winner_id = some 1 ∧
    (runClaims [1, 2] ⟨⟨true, none, 250⟩, fun _ => 0⟩).2.points 1 = 250 ∧
    (runClaims [1, 2] ⟨⟨true, none, 250⟩, fun _ => 0⟩).2.points 2 = 0 := by
  have h := multiplayer_single_winner ⟨⟨true, none, 250⟩, fun _ => 0⟩ 1 [2] rfl rfl
    (by decide)
  refine ⟨?_, h.2.2.1, ?_, ?_⟩
  · rw [h.1]; rfl
  · rw [h.2.2.2.1 1]; rfl
  · rw [h.2.2.2.1 2]; rfl

/-! ## Achievement Evaluator — `checkAndAwardAchievements` in
`app/api/geothinkr/game/route.js` -/

/-- One row of the `achievements` catalog. -/
structure Achievement where
  achievement_id : Nat
  key : String
deriving DecidableEq, Repr

/-- One entry of the user's history snapshot as the evaluator reads it:
`points_awarded` and the joined photo's `category` (ascending `created_at`
order is the list order). -/
structure HistEntry where
  points_awarded : ℤ
  category : Option String
deriving DecidableEq, Repr

/-- The `achievementByKey` JS object, built by `forEach` assignment over the
catalog: for a duplicated key the later entry wins. -/
def achievementByKey (catalog : List Achievement) (key : String) : Option Achievement :=
  catalog.foldl (fun acc a => if a.key = key then some a else acc) none

/-- Evaluator state: the `earnedIds` set and the `newlyEarned` list the
route accumulates (an element of `newlyEarned` is also one inserted
`user_achievements` row). -/
structure EvalState where
  earnedIds : List Nat
  newlyEarned : List String
deriving DecidableEq, Repr

/-- `tryAward(key)`: skip when the key is missing from the catalog or its id
is already earned; otherwise insert the row, record the key and add the id
to the earned set. -/
def tryAward (catalog : List Achievement) (key : String) (s : EvalState) : EvalState :=
  match achievementByKey catalog key with
  | none => s
  | some ach =>
    if ach.achievement_id ∈ s.earnedIds then s
    else { earnedIds := ach.achievement_id :: s.earnedIds,
           newlyEarned := s.newlyEarned ++ [ach.key] }

/-- The guard conditions of `checkAndAwardAchievements` paired with the key
each one awards, in source order. -/
def achievementRules (history : List HistEntry) (latestTier : String)
    (hintsUsed : ℤ) : List (Bool × String) :=
  let totalGames := history.length
  let spotOns := (history.filter (fun h => decide (500 ≤ h.points_awarded))).length
  [ (decide (1 ≤ totalGames), "first_guess"),
    (decide (10 ≤ totalGames), "games_10"),
    (decide (50 ≤ totalGames), "games_50"),
    (decide (5 ≤ spotOns), "spot_on_5"),
    (decide (10 ≤ spotOns), "spot_on_10"),
    (decide (latestTier = "Spot-on!" ∧ hintsUsed = 0), "no_hints"),
    (decide (3 ≤ history.length) &&
       (history.drop (history.length - 3)).all (fun h => decide (500 ≤ h.points_awarded)),
     "perfect_streak_3"),
    (["landmark", "building", "nature", "statue", "other"].all
       (fun c => (history.filterMap (fun h => h.category)).contains c),
     "all_categories") ]

/-- One guarded award step of the evaluator. -/
def applyRule (catalog : List Achievement) (s : EvalState) (r : Bool × String) :
    EvalState :=
  if r.1 then tryAward catalog r.2 s else s

/-- Run a list of guarded award steps in order. -/
def runRules (catalog : List Achievement) (rules : List (Bool × String))
    (s : EvalState) : EvalState :=
  rules.foldl (applyRule catalog) s

/-- `checkAndAwardAchievements(supabase, userId, latestTier, hintsUsed)`:
reads the catalog, the user's earned set and full history, then runs the
eight guarded `tryAward` calls in source order. -/
def checkAndAwardAchievements (catalog : List Achievement) (earned0 : List Nat)
    (history : List HistEntry) (latestTier : String) (hintsUsed : ℤ) : EvalState :=
  runRules catalog (achievementRules history latestTier hintsUsed)
    { earnedIds := earned0, newlyEarned := [] }

/-- The lookup fold only ever returns an entry carrying the looked-up key,
provided its accumulator already does. -/
theorem byKey_foldl_key (k : String) (catalog : List Achievement) :
    ∀ acc : Option Achievement, (∀ b, acc = some b → b.key = k) →
      ∀ b, catalog.foldl (fun acc a => if a.key = k then some a else acc) acc = some b →
        b.key = k := by
  induction catalog with
  | nil => intro acc hacc b hb; exact hacc b hb
  | cons c cs ih =>
    intro acc hacc b hb
    rw [List.foldl_cons] at hb
    refine ih _ ?_ b hb
    intro b' hb'
    by_cases hc : c.key = k
    · rw [if_pos hc] at hb'
      exact Option.some.inj hb' ▸ hc
    · rw [if_neg hc] at hb'
      exact hacc b' hb'

/-- A catalog lookup only ever returns an entry carrying the looked-up key. -/
theorem achievementByKey_key {catalog : List Achievement} {k : String}
    {a : Achievement} (h : achievementByKey catalog k = some a) : a.key = k := by
  rw [achievementByKey] at h
  exact byKey_foldl_key k catalog none (fun b hb => by cases hb) a h

/-- Membership in `earnedIds` is preserved by every evaluator step. -/
theorem runRules_earned_mono (catalog : List Achievement)
    (rules : List (Bool × String)) (s : EvalState) {x : Nat}
    (hx : x ∈ s.earnedIds) : x ∈ (runRules catalog rules s).earnedIds := by
  induction rules generalizing s with
  | nil => exact hx
  | cons r rs ih =>
    refine ih (s := applyRule catalog s r) ?_
    unfold applyRule tryAward
    split
    · split
      · exact hx
      · split
        · exact hx
        · exact List.mem_cons_of_mem _ hx
    · exact hx

/-- After `tryAward key`, a successfully looked-up key's id is earned. -/
theorem tryAward_mem (catalog : List Achievement) (key : String) (s : EvalState)
    {a : Achievement} (h : achievementByKey catalog key = some a) :
    a.achievement_id ∈ (tryAward catalog key s).earnedIds := by
  unfold tryAward
  rw [h]
  by_cases hm : a.achievement_id ∈ s.earnedIds
  · simpa [hm] using hm
  · simp [hm]

/-- After a run, every triggered rule whose key resolves in the catalog has
its id in the earned set. -/
theorem runRules_triggered_earned (catalog : List Achievement)
    (rules : List (Bool × String)) (s : EvalState) :
    ∀ r ∈ rules, r.1 = true →
      ∀ a, achievementByKey catalog r.2 = some a →
        a.achievement_id ∈ (runRules catalog rules s).earnedIds := by
  induction rules generalizing s with
  | nil => intro r hr; cases hr
  | cons q qs ih =>
    intro r hr htrig a ha
    rcases List.mem_cons.mp hr with rfl | hr'
    · show a.achievement_id ∈ (runRules catalog qs (applyRule catalog s r)).earnedIds
      refine runRules_earned_mono catalog qs _ ?_
      unfold applyRule
      rw [htrig]
      simpa using tryAward_mem catalog r.2 s ha
    · exact ih (applyRule catalog s q) r hr' htrig a ha

/-- A run in which every triggered, resolvable rule is already earned is a
no-op: same earned set and no insertions. -/
theorem runRules_noop (catalog : List Achievement) (rules : List (Bool × String))
    (s : EvalState)
    (h : ∀ r ∈ rules, r.1 = true →
      ∀ a, achievementByKey catalog r.2 = some a → a.achievement_id ∈ s.earnedIds) :
    runRules catalog rules s = s := by
  induction rules generalizing s with
  | nil => rfl
  | cons q qs ih =>
    show runRules catalog qs (applyRule catalog s q) = s
    have hq : applyRule catalog s q = s := by
      unfold applyRule
      by_cases htrig : q.1 = true
      · rw [if_pos htrig]
        unfold tryAward
        cases heq : achievementByKey catalog q.2 with
        | none => rfl
        | some ach =>
          simp [h q (List.mem_cons_self q qs) htrig ach heq]
      · rw [if_neg htrig]
    rw [hq]
    exact ih s fun r hr => h r (List.mem_cons_of_mem q hr)

/-! ## Attempt Ledger and the guess POST handler —
`app/api/geothinkr/game/route.js` and the `geothinkr_history` schema -/

/-- One row of `geothinkr_history`. -/
structure HistoryRow where
  user_id : Nat
  photo_id : Nat
  points_awarded : ℤ
deriving DecidableEq, Repr

/-- One row of `geothinkr_photos`, restricted to the columns the POST
handler reads. -/
structure Photo where
  photo_id : Nat
  x_coordinate : ℚ
  y_coordinate : ℚ
  category : Option String
deriving DecidableEq, Repr

/-- The database state the guess POST handler touches. -/
structure GameDB where
  photos : List Photo
  history : List HistoryRow
  points : Nat → ℤ
  userAchievements : List (Nat × Nat)

/-- The ledger pre-check: the first `geothinkr_history` row for
`(user_id, photo_id)`, if any. -/
def findHistory (db : GameDB) (uid pid : Nat) : Option HistoryRow :=
  db.history.find? (fun h => decide (h.user_id = uid ∧ h.photo_id = pid))

/-- Insert into `geothinkr_history`: the table's
`UNIQUE(user_id, photo_id)` constraint rejects a duplicate row, leaving the
table unchanged; otherwise the row is appended (list order is
`created_at` order). -/
def insertHistory (row : HistoryRow) (db : GameDB) : GameDB :=
  if (findHistory db row.user_id row.photo_id).isSome then db
  else { db with history := db.history ++ [row] }

/-- The user's history snapshot as the achievement evaluator queries it:
rows of the user in ascending `created_at` order, joined with each photo's
category. -/
def userHistoryEntries (db : GameDB) (uid : Nat) : List HistEntry :=
  (db.history.filter (fun h => decide (h.user_id = uid))).map fun h =>
    ⟨h.points_awarded,
     (db.photos.find? (fun p => decide (p.photo_id = h.photo_id))).bind
       (fun p => p.category)⟩

/-- The achievement step of the POST handler: run
`checkAndAwardAchievements` against the user's earned set and history and
insert one `user_achievements` row per newly earned key. -/
def awardAchievements (catalog : List Achievement) (uid : Nat) (tier : String)
    (hintsUsed : ℤ) (db : GameDB) : List String × GameDB :=
  let earned := (db.userAchievements.filter (fun e => decide (e.1 = uid))).map Prod.snd
  let ev := checkAndAwardAchievements catalog earned (userHistoryEntries db uid)
    tier hintsUsed
  let inserted := (ev.newlyEarned.filterMap (achievementByKey catalog)).map
    (fun a => (uid, a.achievement_id))
  (ev.newlyEarned, { db with userAchievements := db.userAchievements ++ inserted })

/-- The database writes the guess POST handler issues after scoring, in
program order: the `increment_points` RPC (only when `points > 0`), then
the `geothinkr_history` insert, then the achievement insertions.  Each is a
separate request to the store, so an execution may stop between any two. -/
def guessWrites (catalog : List Achievement) (uid pid : Nat) (pts : ℤ)
    (tier : String) (hintsUsed : ℤ) : List (GameDB → GameDB) :=
  [fun db => if 0 < pts then { db with points := increment_points uid pts db.points }
             else db,
   fun db => insertHistory ⟨uid, pid, pts⟩ db,
   fun db => (awardAchievements catalog uid tier hintsUsed db).2]

/-- Execute the first `k` write steps: the state a request leaves behind
when it fails after `k` of its storage writes. -/
def applyWrites (steps : List (GameDB → GameDB)) (k : Nat) (db : GameDB) : GameDB :=
  (steps.take k).foldl (fun d f => f d) db

/-- Outcome of the guess POST handler. -/
inductive GuessResponse where
  | ok (pts : ℤ) (tier : String) (achievementsEarned : List String)
  | alreadyPlayed
  | photoNotFound
deriving DecidableEq, Repr

/-- The accepted path of the guess POST handler: score the guess against
the photo, credit the points when positive, record the history row, then
evaluate achievements. -/
def acceptedGuess (catalog : List Achievement) (uid pid : Nat) (photo : Photo)
    (x y : ℚ) (hintsUsed : ℤ) (difficulty : String) (db : GameDB) :
    GuessResponse × GameDB :=
  let s := distSqOf photo.x_coordinate photo.y_coordinate x y
  let tr := tierFor s difficulty
  let pts := finalPoints tr.basePoints hintsUsed
  let db₁ := if 0 < pts then
      { db with points := increment_points uid pts db.points } else db
  let db₂ := insertHistory ⟨uid, pid, pts⟩ db₁
  let aw := awardAchievements catalog uid tr.tier hintsUsed db₂
  (.ok pts tr.tier aw.1, aw.2)

/-- The POST handler of the game route, after auth and body validation:
pre-check the attempt ledger (409 "Already played"), look up the photo
(404), then take the accepted path. -/
def postGuess (catalog : List Achievement) (uid pid : Nat) (x y : ℚ)
    (hintsUsed : ℤ) (difficulty : String) (db : GameDB) :
    GuessResponse × GameDB :=
  match findHistory db uid pid with
  | some _ => (.alreadyPlayed, db)
  | none =>
    match db.photos.find? (fun p => decide (p.photo_id = pid)) with
    | none => (.photoNotFound, db)
    | some photo => acceptedGuess catalog uid pid photo x y hintsUsed difficulty db

/-- Invariant of an evaluator run: the starting earned set stays earned, the
newly-earned list has no duplicates, and every newly-earned key resolves to
a catalog entry whose id is earned now but was not earned at the start. -/
theorem runRules_invariant (catalog : List Achievement) (earned0 : List Nat)
    (rules : List (Bool × String)) :
    ∀ s : EvalState,
      ((∀ x ∈ earned0, x ∈ s.earnedIds) ∧ s.newlyEarned.Nodup ∧
        ∀ k ∈ s.newlyEarned, ∃ a, achievementByKey catalog k = some a ∧
          a.achievement_id ∈ s.earnedIds ∧ a.achievement_id ∉ earned0) →
      ((∀ x ∈ earned0, x ∈ (runRules catalog rules s).earnedIds) ∧
        (runRules catalog rules s).newlyEarned.Nodup ∧
        ∀ k ∈ (runRules catalog rules s).newlyEarned,
          ∃ a, achievementByKey catalog k = some a ∧
            a.achievement_id ∈ (runRules catalog rules s).earnedIds ∧
            a.achievement_id ∉ earned0) := by
  induction rules with
  | nil => intro s h; exact h
  | cons q qs ih =>
    intro s h
    refine ih (applyRule catalog s q) ?_
    unfold applyRule
    by_cases htrig : q.1 = true
    · rw [if_pos htrig]
      unfold tryAward
      cases heq : achievementByKey catalog q.2 with
      | none => exact h
      | some ach =>
        dsimp only
        by_cases hmem : ach.achievement_id ∈ s.earnedIds
        · rw [if_pos hmem]; exact h
        · rw [if_neg hmem]
          have hkey : ach.key = q.2 := achievementByKey_key heq
          have hnotnew : ach.key ∉ s.newlyEarned := by
            intro hin
            rcases h.2.2 ach.key hin with ⟨a', ha', hmem', _⟩
            rw [hkey, heq] at ha'
            exact hmem (Option.some.inj ha' ▸ hmem')
          refine ⟨fun x hx => List.mem_cons_of_mem _ (h.1 x hx), ?_, ?_⟩
          · simpa [List.nodup_append] using ⟨h.2.1, hnotnew⟩
          · intro k hk
            rcases List.mem_append.mp hk with hk | hk
            · rcases h.2.2 k hk with ⟨a', ha', hmem', hnot'⟩
              exact ⟨a', ha', List.mem_cons_of_mem _ hmem', hnot'⟩
            · have hkq : k = ach.key := by simpa using hk
              subst hkq
              refine ⟨ach, by rw [hkey, heq], List.mem_cons_self _ _, fun hc => ?_⟩
              exact hmem (h.1 _ hc)
    · rw [if_neg htrig]; exact h

/-- C7: the achievement evaluator is idempotent — a second invocation with
identical history, latest tier and hint count earns nothing new and leaves
the earned set unchanged — and within one invocation each achievement key is
awarded at most once and only if not already earned. -/
theorem achievement_evaluator_idempotent (catalog : List Achievement)
    (earned0 : List Nat) (history : List HistEntry) (latestTier : String)
    (hintsUsed : ℤ) :
    (checkAndAwardAchievements catalog
        (checkAndAwardAchievements catalog earned0 history latestTier hintsUsed).earnedIds
        history latestTier hintsUsed).earnedIds =
      (checkAndAwardAchievements catalog earned0 history latestTier hintsUsed).earnedIds ∧
    (checkAndAwardAchievements catalog
        (checkAndAwardAchievements catalog earned0 history latestTier hintsUsed).earnedIds
        history latestTier hintsUsed).newlyEarned = [] ∧
    (checkAndAwardAchievements catalog earned0 history latestTier
        hintsUsed).newlyEarned.Nodup ∧
    (∀ k ∈ (checkAndAwardAchievements catalog earned0 history latestTier
        hintsUsed).newlyEarned,
      ∃ a, achievementByKey catalog k = some a ∧ a.achievement_id ∉ earned0) := by
  have hs1 := runRules_invariant catalog earned0
      (achievementRules history latestTier hintsUsed)
      { earnedIds := earned0, newlyEarned := [] }
      ⟨fun x hx => hx, List.nodup_nil, fun k hk => absurd hk (List.not_mem_nil k)⟩
  have hearned := runRules_triggered_earned catalog
      (achievementRules history latestTier hintsUsed)
      { earnedIds := earned0, newlyEarned := [] }
  have h2 : checkAndAwardAchievements catalog
      (checkAndAwardAchievements catalog earned0 history latestTier hintsUsed).earnedIds
      history latestTier hintsUsed =
      { earnedIds := (checkAndAwardAchievements catalog earned0 history latestTier
          hintsUsed).earnedIds, newlyEarned := [] } :=
    runRules_noop catalog (achievementRules history latestTier hintsUsed)
      { earnedIds := (checkAndAwardAchievements catalog earned0 history latestTier
          hintsUsed).earnedIds, newlyEarned := [] }
      (fun r hr htrig a ha => hearned r hr htrig a ha)
  refine ⟨by rw [h2], by rw [h2], hs1.2.1, fun k hk => ?_⟩
  rcases hs1.2.2 k hk with ⟨a, ha, _, hnot⟩
  exact ⟨a, ha, hnot⟩

/-- Witness for `achievement_evaluator_idempotent`: with a one-entry catalog
and a first spot-on game, `first_guess` is newly earned and was not earned
before. -/
theorem achievement_evaluator_idempotent_witness :
    ∃ a, achievementByKey [⟨1, "first_guess"⟩] "first_guess" = some a ∧
      a.achievement_id ∉ ([] : List Nat) :=
  (achievement_evaluator_idempotent [⟨1, "first_guess"⟩] [] [⟨500, some "landmark"⟩]
      "Spot-on!" 0).2.2.2 "first_guess" (by decide)

/-- C5: the scoring engine selects radii easy 100/300, medium 75/200,
hard 50/150, default 100/300; tiers are assigned by inclusive boundaries
evaluated in order (distance ≤ spotOnRadius → "Spot-on!"/500, else
distance ≤ closeRadius → "Close enough"/200, else "Nope"/0); at medium
difficulty distance exactly 75 scores "Spot-on!"/500 while 75.01 scores
"Close enough"/200; and for fixed difficulty and hint count the awarded
points are monotonically non-increasing in the distance.  Distances enter
squared, since `√s ≤ r ↔ s ≤ r²` for the non-negative radii. -/
theorem guess_scoring_policy :
    (getScoringThresholds "easy" = ⟨100, 300⟩ ∧
     getScoringThresholds "medium" = ⟨75, 200⟩ ∧
     getScoringThresholds "hard" = ⟨50, 150⟩ ∧
     ∀ d : String, d ≠ "easy" → d ≠ "medium" → d ≠ "hard" →
       getScoringThresholds d = ⟨100, 300⟩) ∧
    (∀ (s : ℚ) (d : String),
       (tierFor s d = ⟨500, "Spot-on!"⟩ ↔
          s ≤ (getScoringThresholds d).spotOnRadius ^ 2) ∧
       (tierFor s d = ⟨200, "Close enough"⟩ ↔
          ¬ s ≤ (getScoringThresholds d).spotOnRadius ^ 2 ∧
            s ≤ (getScoringThresholds d).closeRadius ^ 2) ∧
       (tierFor s d = ⟨0, "Nope"⟩ ↔
          ¬ s ≤ (getScoringThresholds d).spotOnRadius ^ 2 ∧
            ¬ s ≤ (getScoringThresholds d).closeRadius ^ 2)) ∧
    tierFor ((75 : ℚ) ^ 2) "medium" = ⟨500, "Spot-on!"⟩ ∧
    tierFor (((7501 : ℚ) / 100) ^ 2) "medium" = ⟨200, "Close enough"⟩ ∧
    (∀ (d : String) (h : ℤ) (r₁ r₂ : ℚ), 0 ≤ r₁ → r₁ ≤ r₂ →
       finalPoints (tierFor (r₂ ^ 2) d).basePoints h ≤
         finalPoints (tierFor (r₁ ^ 2) d).basePoints h) := by
  have hmed : getScoringThresholds "medium" = ⟨75, 200⟩ := rfl
  refine ⟨⟨rfl, rfl, rfl, ?_⟩, ?_,
    by simp only [tierFor, hmed]; rw [if_pos (by norm_num)],
    by simp only [tierFor, hmed]; rw [if_neg (by norm_num), if_pos (by norm_num)], ?_⟩
  · intro d h₁ h₂ h₃
    simp [getScoringThresholds, h₁, h₂, h₃]
  · intro s d
    refine ⟨?_, ?_, ?_⟩ <;>
      · simp only [tierFor]
        split_ifs <;> simp_all
  · intro d h r₁ r₂ h₁ h₂
    exact finalPoints_mono_base (basePoints_antitone d (by nlinarith))

/-- Witness for `guess_scoring_policy`: the default-difficulty branch and
monotonicity at concrete inputs. -/
theorem guess_scoring_policy_witness :
    getScoringThresholds "expert" = ⟨100, 300⟩ ∧
    finalPoints (tierFor ((2 : ℚ) ^ 2) "hard").basePoints 1 ≤
      finalPoints (tierFor ((1 : ℚ) ^ 2) "hard").basePoints 1 :=
  ⟨guess_scoring_policy.1.2.2.2 "expert" (by decide) (by decide) (by decide),
   guess_scoring_policy.2.2.2.2 "hard" 1 1 2 (by norm_num) (by norm_num)⟩

/-- C6: for non-negative `hintsUsed` and any base points produced by the
tier policy, the awarded points equal `max (basePoints - 100*hintsUsed) 0`,
are non-negative and never exceed the base points. -/
theorem final_points_hint_deduction (hintsUsed : ℤ) (hh : 0 ≤ hintsUsed)
    (distSq : ℚ) (difficulty : String) :
    finalPoints (tierFor distSq difficulty).basePoints hintsUsed =
      max ((tierFor distSq difficulty).basePoints - 100 * hintsUsed) 0 ∧
    0 ≤ finalPoints (tierFor distSq difficulty).basePoints hintsUsed ∧
    finalPoints (tierFor distSq difficulty).basePoints hintsUsed ≤
      (tierFor distSq difficulty).basePoints := by
  have hb := basePoints_nonneg distSq difficulty
  unfold finalPoints hintDeduction
  refine ⟨?_, ?_, ?_⟩ <;> omega

/-- Witness for `final_points_hint_deduction`: a spot-on guess at distance
40 on hard difficulty with one hint is worth 400 points. -/
theorem final_points_hint_deduction_witness :
    (finalPoints (tierFor ((40 : ℚ) ^ 2) "hard").basePoints 1 =
       max ((tierFor ((40 : ℚ) ^ 2) "hard").basePoints - 100 * 1) 0 ∧
     0 ≤ finalPoints (tierFor ((40 : ℚ) ^ 2) "hard").basePoints 1 ∧
     finalPoints (tierFor ((40 : ℚ) ^ 2) "hard").basePoints 1 ≤
       (tierFor ((40 : ℚ) ^ 2) "hard").basePoints) ∧
    finalPoints (tierFor ((40 : ℚ) ^ 2) "hard").basePoints 1 = 400 :=
  ⟨final_points_hint_deduction 1 (by norm_num) ((40 : ℚ) ^ 2) "hard",
   by
    have hhard : getScoringThresholds "hard" = ⟨50, 150⟩ := rfl
    simp only [tierFor, hhard]
    rw [if_pos (by norm_num)]
    rfl⟩

/-! ### Attempt-ledger lemmas and the submit-guess claims -/

/-- Updating only the `points` column does not change the ledger pre-check. -/
theorem findHistory_set_points (db : GameDB) (p : Nat → ℤ) (uid pid : Nat) :
    findHistory { db with points := p } uid pid = findHistory db uid pid := rfl

/-- The achievement step does not change the ledger. -/
theorem findHistory_award (catalog : List Achievement) (u : Nat) (tier : String)
    (h : ℤ) (db : GameDB) (uid pid : Nat) :
    findHistory (awardAchievements catalog u tier h db).2 uid pid =
      findHistory db uid pid := rfl

/-- Inserting a fresh `(user, photo)` row makes the pre-check find it. -/
theorem findHistory_insert (db : GameDB) (row : HistoryRow)
    (h : findHistory db row.user_id row.photo_id = none) :
    findHistory (insertHistory row db) row.user_id row.photo_id = some row := by
  unfold insertHistory
  rw [h]
  simp only [Option.isSome_none, Bool.false_eq_true, if_false]
  show (db.history ++ [row]).find?
      (fun h => decide (h.user_id = row.user_id ∧ h.photo_id = row.photo_id)) = some row
  rw [List.find?_append]
  unfold findHistory at h
  rw [h]
  simp [List.find?]

/-- The duplicate guard of the UNIQUE constraint: a duplicate insert that
passed the pre-check is rejected, leaving the table unchanged. -/
theorem insertHistory_duplicate (db : GameDB) (row : HistoryRow)
    (h : findHistory db row.user_id row.photo_id ≠ none) :
    insertHistory row db = db := by
  unfold insertHistory
  rw [if_pos (Option.isSome_iff_ne_none.mpr h)]

/-- The accepted path leaves the submitted `(user, photo)` row in the
ledger. -/
theorem acceptedGuess_records (catalog : List Achievement) (uid pid : Nat)
    (photo : Photo) (x y : ℚ) (hintsUsed : ℤ) (difficulty : String)
    (db : GameDB) (hnew : findHistory db uid pid = none) :
    findHistory (acceptedGuess catalog uid pid photo x y hintsUsed difficulty db).2
        uid pid =
      some ⟨uid, pid,
        finalPoints (tierFor (distSqOf photo.x_coordinate photo.y_coordinate x y)
          difficulty).basePoints hintsUsed⟩ := by
  unfold acceptedGuess
  simp only []
  rw [findHistory_award]
  refine findHistory_insert _ _ ?_
  split
  · rw [findHistory_set_points]; exact hnew
  · exact hnew

/-- C4: after one accepted submission for `(u, t)` the ledger holds the
row; any later submission finding that row is rejected with 409 "Already
played" and causes no state change at all — no history row, no achievement
insertion, no balance change; and the `UNIQUE(user_id, photo_id)`
constraint rejects a duplicate insert that passed the pre-check. -/
theorem duplicate_guess_rejected (catalog : List Achievement) (db : GameDB)
    (uid pid : Nat) :
    (∀ (x y : ℚ) (hintsUsed : ℤ) (difficulty : String) (pts : ℤ) (tier : String)
        (ach : List String) (db' : GameDB),
      postGuess catalog uid pid x y hintsUsed difficulty db =
        (.ok pts tier ach, db') →
      findHistory db' uid pid ≠ none) ∧
    (findHistory db uid pid ≠ none →
      ∀ (x y : ℚ) (hintsUsed : ℤ) (difficulty : String),
        postGuess catalog uid pid x y hintsUsed difficulty db =
          (.alreadyPlayed, db)) ∧
    (∀ row : HistoryRow, findHistory db row.user_id row.photo_id ≠ none →
      insertHistory row db = db) := by
  refine ⟨?_, ?_, fun row h => insertHistory_duplicate db row h⟩
  · intro x y hintsUsed difficulty pts tier ach db' heq
    unfold postGuess at heq
    cases hfind : findHistory db uid pid with
    | some r => rw [hfind] at heq; cases heq
    | none =>
      rw [hfind] at heq
      cases hphoto : db.photos.find? (fun p => decide (p.photo_id = pid)) with
      | none => rw [hphoto] at heq; cases heq
      | some photo =>
        rw [hphoto] at heq
        have hdb' : db' =
            (acceptedGuess catalog uid pid photo x y hintsUsed difficulty db).2 :=
          (congrArg Prod.snd heq).symm
        rw [hdb',
          acceptedGuess_records catalog uid pid photo x y hintsUsed difficulty db hfind]
        exact Option.some_ne_none _
  · intro h x y hintsUsed difficulty
    unfold postGuess
    cases hfind : findHistory db uid pid with
    | some r => rfl
    | none => exact absurd hfind h

/-- Witness for `duplicate_guess_rejected`: a state already holding the
`(7, 1)` row rejects a resubmission by user 7 for photo 1 unchanged. -/
theorem duplicate_guess_rejected_witness :
    postGuess [] 7 1 10 10 0 "easy"
        ⟨[⟨1, 10, 10, some "landmark"⟩], [⟨7, 1, 500⟩], fun _ => 0, []⟩ =
      (.alreadyPlayed,
       ⟨[⟨1, 10, 10, some "landmark"⟩], [⟨7, 1, 500⟩], fun _ => 0, []⟩) :=
  (duplicate_guess_rejected [] ⟨[⟨1, 10, 10, some "landmark"⟩], [⟨7, 1, 500⟩],
      fun _ => 0, []⟩ 7 1).2.1 (by intro h; cases h) 10 10 0 "easy"

/-- C3 (counterexample): the guess POST handler credits the balance with
the `increment_points` RPC and inserts the history row in two separate
storage requests.  With photo 1 at (10,10), user 7 guessing (10,10) on
easy with no hints (worth 500 points), the execution that stops after the
first write has credited 500 points while the `(7, 1)` history row is
absent — the two effects are not one atomic step. -/
theorem guess_award_not_atomic :
    finalPoints (tierFor (distSqOf 10 10 10 10) "easy").basePoints 0 = 500 ∧
    (applyWrites (guessWrites [] 7 1 500 "Spot-on!" 0) 1
        ⟨[⟨1, 10, 10, some "landmark"⟩], [], fun _ => 0, []⟩).points 7 = 500 ∧
    findHistory (applyWrites (guessWrites [] 7 1 500 "Spot-on!" 0) 1
        ⟨[⟨1, 10, 10, some "landmark"⟩], [], fun _ => 0, []⟩) 7 1 = none := by
  refine ⟨?_, rfl, rfl⟩
  have h : getScoringThresholds "easy" = ⟨100, 300⟩ := rfl
  simp only [tierFor, distSqOf, h]
  rw [if_pos (by norm_num)]
  rfl

/-- C3 (amended): points are credited by a single atomic statement
(`increment_points`) issued before — and separately from — the history
insert: an execution stopping before any write has no effect, the
completed pair of writes holds both effects, but the execution stopping
between the two writes has credited the balance with no matching history
row. -/
theorem guess_award_write_order (catalog : List Achievement) (db : GameDB)
    (uid pid : Nat) (pts : ℤ) (tier : String) (hintsUsed : ℤ)
    (hpts : 0 < pts) (hnew : findHistory db uid pid = none) :
    applyWrites (guessWrites catalog uid pid pts tier hintsUsed) 0 db = db ∧
    ((applyWrites (guessWrites catalog uid pid pts tier hintsUsed) 1 db).points uid =
        db.points uid + pts ∧
      findHistory (applyWrites (guessWrites catalog uid pid pts tier hintsUsed) 1 db)
        uid pid = none) ∧
    findHistory (applyWrites (guessWrites catalog uid pid pts tier hintsUsed) 2 db)
      uid pid = some ⟨uid, pid, pts⟩ := by
  have h1 : applyWrites (guessWrites catalog uid pid pts tier hintsUsed) 1 db =
      { db with points := increment_points uid pts db.points } := by
    show (if 0 < pts then { db with points := increment_points uid pts db.points }
          else db) = { db with points := increment_points uid pts db.points }
    rw [if_pos hpts]
  have h2 : applyWrites (guessWrites catalog uid pid pts tier hintsUsed) 2 db =
      insertHistory ⟨uid, pid, pts⟩
        { db with points := increment_points uid pts db.points } := by
    show insertHistory ⟨uid, pid, pts⟩
        (if 0 < pts then { db with points := increment_points uid pts db.points }
         else db) =
      insertHistory ⟨uid, pid, pts⟩
        { db with points := increment_points uid pts db.points }
    rw [if_pos hpts]
  refine ⟨rfl, ⟨?_, ?_⟩, ?_⟩
  · rw [h1]; simp [increment_points]
  · rw [h1, findHistory_set_points]; exact hnew
  · rw [h2]
    exact findHistory_insert _ _ (by rw [findHistory_set_points]; exact hnew)

/-- Witness for `guess_award_write_order` on the concrete race-free state
of `guess_award_not_atomic`. -/
theorem guess_award_write_order_witness :
    applyWrites (guessWrites [] 7 1 500 "Spot-on!" 0) 0
        ⟨[⟨1, 10, 10, some "landmark"⟩], [], fun _ => 0, []⟩ =
      ⟨[⟨1, 10, 10, some "landmark"⟩], [], fun _ => 0, []⟩ ∧
    ((applyWrites (guessWrites [] 7 1 500 "Spot-on!" 0) 1
        ⟨[⟨1, 10, 10, some "landmark"⟩], [], fun _ => 0, []⟩).points 7 = 500 ∧
      findHistory (applyWrites (guessWrites [] 7 1 500 "Spot-on!" 0) 1
        ⟨[⟨1, 10, 10, some "landmark"⟩], [], fun _ => 0, []⟩) 7 1 = none) ∧
    findHistory (applyWrites (guessWrites [] 7 1 500 "Spot-on!" 0) 2
        ⟨[⟨1, 10, 10, some "landmark"⟩], [], fun _ => 0, []⟩) 7 1 = some ⟨7, 1, 500⟩ :=
  guess_award_write_order [] ⟨[⟨1, 10, 10, some "landmark"⟩], [], fun _ => 0, []⟩
    7 1 500 "Spot-on!" 0 (by norm_num) rfl

/-! ## Quest progress route — POST of `app/api/progress/route.js` -/

/-- A balance-affecting storage statement issued by the application tier.
`rpcClaimQuest` and `rpcIncrement` are single-statement atomic operations
executed inside the store; `readBalance`/`writeBalance` form the
fetch-balance-then-write-balance round trip. -/
inductive PointsOp where
  | rpcClaimQuest (userId : Nat)
  | rpcIncrement (userId : Nat) (amount : ℤ)
  | readBalance (userId : Nat)
  | writeBalance (userId : Nat) (newValue : ℤ)
deriving DecidableEq, Repr

/-- An op is one of the two single-statement atomic operations. -/
def isAtomicPointsOp : PointsOp → Bool
  | .rpcClaimQuest _ => true
  | .rpcIncrement _ _ => true
  | _ => false

/-- The progress pre-check runs `select("progress_id")`, so the JS object
for an existing row carries only `progress_id`. -/
structure SelectedProgress where
  progress_id : Nat
deriving DecidableEq, Repr

/-- `existingProgress.completed` read off the object selected with
`select("progress_id")`: the field is absent, the access yields
`undefined`, and `undefined` is falsy. -/
def selectedProgressCompleted (_sp : SelectedProgress) : Bool := false

/-- Outcome of the progress POST handler (quest and location found). -/
inductive ProgressResult where
  | ok
  | conflict
deriving DecidableEq, Repr

/-- The state the progress POST handler touches: the quest row, the
`completed` flag of this user's progress row (`none` = no row yet) and the
`points` column. -/
structure ProgressDB where
  quest : Quest
  progressRow : Option Bool
  points : Nat → ℤ

/-- POST of the progress route after auth, body validation and the
location/quest lookups: pre-check the progress row (selecting only
`progress_id`), upsert the row, call the `claim_quest` RPC, return 409
when a multiplayer quest is already won, then award
`quest.reward_points || 100` for a normal quest when
`completed && (!existingProgress || !existingProgress.completed)`.
`claimRpcError` and `pointsRpcError` model the two RPC-failure fallbacks
of the source; the third result component is the trace of
balance-affecting statements issued. -/
def postProgress (uid : Nat) (completed : Bool)
    (claimRpcError pointsRpcError : Bool) (db : ProgressDB) :
    ProgressResult × ProgressDB × List PointsOp :=
  let existingProgress : Option SelectedProgress :=
    db.progressRow.map (fun _ => ⟨0⟩)
  let db₁ : ProgressDB := { db with progressRow := some completed }
  let afterClaim : Option Bool × ProgressDB × List PointsOp :=
    if claimRpcError then (none, db₁, [])
    else
      let c := claim_quest uid ⟨db₁.quest, db₁.points⟩
      (some c.1, ⟨c.2.quest, db₁.progressRow, c.2.points⟩, [.rpcClaimQuest uid])
  if afterClaim.1 = some false then (.conflict, afterClaim.2)
  else
    let db₂ := afterClaim.2.1
    let ops := afterClaim.2.2
    let pointsToAward : ℤ :=
      if db.quest.reward_points = 0 then 100 else db.quest.reward_points
    let firstTime : Bool :=
      match existingProgress with
      | none => true
      | some sp => !selectedProgressCompleted sp
    if !db.quest.is_multiplayer && completed && firstTime then
      if !pointsRpcError then
        (.ok, { db₂ with points := increment_points uid pointsToAward db₂.points },
         ops ++ [.rpcIncrement uid pointsToAward])
      else
        let currentPoints := db₂.points uid
        (.ok,
         { db₂ with points := fun u =>
             if u = uid then currentPoints + pointsToAward else db₂.points u },
         ops ++ [.readBalance uid, .writeBalance uid (currentPoints + pointsToAward)])
    else (.ok, db₂, ops)

/-- The admin manual-award handler `app/api/admin/points/route.js`: after
the `is_admin` check it calls `increment_points` with `parseInt(points)` —
any integer, with no sign or range validation. -/
def manualAward (targetUser : Nat) (amount : ℤ) (points : Nat → ℤ) : Nat → ℤ :=
  increment_points targetUser amount points

/-! ## Admin GeoThinkr photo route — `app/api/admin/geothinkr/route.js` -/

/-- A request to the admin photo POST endpoint: the cookie header (never
read by the handler) and the form fields it validates. -/
structure AdminPostRequest where
  cookie : Option String
  file : Option String
  x : Option String
  y : Option String
deriving DecidableEq, Repr

/-- JS truthiness of a form value: `null` (absent) and `""` are falsy. -/
def truthy : Option String → Bool
  | none => false
  | some s => !(s == "")

/-- POST of the admin photo route: validate `file`/`x`/`y` (400), upload
the image, insert the `geothinkr_photos` row.  `uploadError`/`dbError`
model storage failures.  Returns the HTTP status and whether the photo row
was inserted.  No step reads the cookie. -/
def adminPhotoPost (req : AdminPostRequest) (uploadError dbError : Bool) :
    Nat × Bool :=
  if !truthy req.file || !truthy req.x || !truthy req.y then (400, false)
  else if uploadError then (500, false)
  else if dbError then (500, false)
  else (201, true)

/-- A request to the admin photo PATCH endpoint. -/
structure AdminPatchRequest where
  cookie : Option String
  id : Option Nat
  verified : Option Bool
  category : Option String
  difficulty : Option String
deriving DecidableEq, Repr

/-- PATCH of the admin photo route: require `id` (400) and at least one
updatable field (400), then update the row.  No step reads the cookie. -/
def adminPhotoPatch (req : AdminPatchRequest) (dbError : Bool) : Nat × Bool :=
  match req.id with
  | none => (400, false)
  | some _ =>
    if req.verified.isNone && req.category.isNone && req.difficulty.isNone then
      (400, false)
    else if dbError then (500, false)
    else (200, true)

/-- A request to the admin photo DELETE endpoint. -/
structure AdminDeleteRequest where
  cookie : Option String
  id : Option Nat
deriving DecidableEq, Repr

/-- DELETE of the admin photo route: require `id` (400), then delete the
row.  No step reads the cookie. -/
def adminPhotoDelete (req : AdminDeleteRequest) (dbError : Bool) : Nat × Bool :=
  match req.id with
  | none => (400, false)
  | some _ => if dbError then (500, false) else (200, true)

/-! ### Progress-route and admin-route claims -/

/-- C8 (code bug): re-submitting an already-completed non-multiplayer
quest awards the reward again.  The pre-check selects only `progress_id`,
so the "first time" guard `!existingProgress.completed` reads an absent
field (`undefined`, falsy) and is always true: with the progress row
already `completed = true` and a 100-point quest, a re-submission returns
success — not 409 — and credits another 100 points. -/
theorem quest_resubmission_double_award :
    (postProgress 7 true false false
        ⟨⟨false, none, 100⟩, some true, fun _ => 0⟩).1 = .ok ∧
    (postProgress 7 true false false
        ⟨⟨false, none, 100⟩, some true, fun _ => 0⟩).2.1.points 7 = 100 :=
  ⟨rfl, rfl⟩

/-- C9 (counterexample): the progress handler's RPC-failure fallback
performs a fetch-balance-then-write-balance round trip from the
application tier, and `increment_points` applies any integer delta with no
validation, so a negative manual award yields a negative balance. -/
theorem points_mutation_claim_fails :
    PointsOp.writeBalance 7 100 ∈
      (postProgress 7 true false true
        ⟨⟨false, none, 100⟩, none, fun _ => 0⟩).2.2 ∧
    manualAward 7 (-50) (fun _ => 0) 7 = -50 := by
  exact ⟨by decide, rfl⟩

/-- C9 (amended): while the increment RPC succeeds the progress handler
touches balances only through single-statement atomic operations (the
`claim_quest` and `increment_points` RPCs), never a read-then-write; the
fallback taken when that RPC errors performs the
fetch-balance-then-write-balance round trip; and the accumulator adds any
integer delta to the stored balance without validation. -/
theorem points_mutation_discipline (uid : Nat) (completed : Bool)
    (claimRpcError : Bool) (db : ProgressDB) :
    ((postProgress uid completed claimRpcError false db).2.2.all
        isAtomicPointsOp = true) ∧
    (db.quest.is_multiplayer = false → completed = true →
      ∃ v, PointsOp.writeBalance uid v ∈
        (postProgress uid completed claimRpcError true db).2.2) ∧
    (∀ (amount : ℤ) (balance : Nat → ℤ) (u : Nat),
      increment_points u amount balance u = balance u + amount) := by
  refine ⟨?_, ?_, fun amount balance u => by simp [increment_points]⟩
  · unfold postProgress
    rcases claimRpcError with _ | _ <;>
      simp only [Bool.false_eq_true, if_false, if_true, reduceIte] <;>
      split_ifs <;>
      simp_all [isAtomicPointsOp]
  · intro hm hcomp
    subst hcomp
    unfold postProgress
    rcases claimRpcError with _ | _
    · have hclaim := @claim_quest_not_multiplayer ⟨db.quest, db.points⟩ hm uid
      simp only [Bool.false_eq_true, if_false, reduceIte, hclaim]
      simp only [hm, Bool.not_false, Bool.true_and]
      rcases hrow : db.progressRow with _ | b <;>
        simp [hrow, selectedProgressCompleted]
    · simp only [reduceIte]
      simp only [hm, Bool.not_false, Bool.true_and]
      rcases hrow : db.progressRow with _ | b <;>
        simp [hrow, selectedProgressCompleted]

/-- Witness for `points_mutation_discipline` at a concrete non-multiplayer
quest submission. -/
theorem points_mutation_discipline_witness :
    ((postProgress 7 true false false
        ⟨⟨false, none, 100⟩, none, fun _ => 0⟩).2.2.all isAtomicPointsOp = true) ∧
    (∃ v, PointsOp.writeBalance 7 v ∈
      (postProgress 7 true false true
        ⟨⟨false, none, 100⟩, none, fun _ => 0⟩).2.2) ∧
    increment_points 3 5 (fun _ => 2) 3 = 7 := by
  have h := points_mutation_discipline 7 true false ⟨⟨false, none, 100⟩, none, fun _ => 0⟩
  exact ⟨h.1, h.2.1 rfl rfl, h.2.2 5 (fun _ => 2) 3⟩

/-- C10: the admin GeoThinkr photo handlers perform no session
authentication: the outcome never depends on the cookie (present or not),
no request yields 401, and a well-formed request against a healthy store
always performs the photo insert, update or delete. -/
theorem admin_photo_routes_unauthenticated :
    (∀ (req : AdminPostRequest) (c : Option String) (ue de : Bool),
      adminPhotoPost { req with cookie := c } ue de = adminPhotoPost req ue de ∧
      (adminPhotoPost req ue de).1 ≠ 401 ∧
      (truthy req.file = true → truthy req.x = true → truthy req.y = true →
        adminPhotoPost req false false = (201, true))) ∧
    (∀ (req : AdminPatchRequest) (c : Option String) (de : Bool),
      adminPhotoPatch { req with cookie := c } de = adminPhotoPatch req de ∧
      (adminPhotoPatch req de).1 ≠ 401 ∧
      (∀ i, req.id = some i → req.verified.isSome = true →
        adminPhotoPatch req false = (200, true))) ∧
    (∀ (req : AdminDeleteRequest) (c : Option String) (de : Bool),
      adminPhotoDelete { req with cookie := c } de = adminPhotoDelete req de ∧
      (adminPhotoDelete req de).1 ≠ 401 ∧
      (∀ i, req.id = some i → adminPhotoDelete req false = (200, true))) := by
  refine ⟨fun req c ue de => ⟨rfl, ?_, ?_⟩, fun req c de => ⟨rfl, ?_, ?_⟩,
    fun req c de => ⟨rfl, ?_, ?_⟩⟩
  · unfold adminPhotoPost
    split_ifs <;> simp
  · intro h1 h2 h3
    simp [adminPhotoPost, h1, h2, h3]
  · unfold adminPhotoPatch
    rcases req.id with _ | i
    · simp
    · split_ifs <;> simp
  · intro i hi hv
    simp [adminPhotoPatch, hi, hv]
    intro hcontra
    rw [hcontra] at hv
    cases hv
  · unfold adminPhotoDelete
    rcases req.id with _ | i
    · simp
    · split_ifs <;> simp
  · intro i hi
    simp [adminPhotoDelete, hi]

/-- Witness for `admin_photo_routes_unauthenticated`: a cookie-less POST
creates a photo and a cookie-less DELETE removes one. -/
theorem admin_photo_routes_unauthenticated_witness :
    adminPhotoPost ⟨none, some "photo.png", some "10", some "20"⟩ false false =
      (201, true) ∧
    adminPhotoDelete ⟨none, some 5⟩ false = (200, true) := by
  have h := admin_photo_routes_unauthenticated
  exact ⟨(h.1 ⟨none, some "photo.png", some "10", some "20"⟩ none false false).2.2
      rfl rfl rfl,
    (h.2.2 ⟨none, some 5⟩ none false).2.2 5 rfl⟩

end SideQuest
